import Mathlib

/-!
# Verification of the catalog backend (items / stats routes)

Shallow embedding of the JSON-file-backed catalog API:
`backend/src/routes/items.js`, `backend/src/routes/stats.js` and the
error-handling middleware.  JavaScript numbers that occur in the claims
are integers, modelled as `Int`; `null` fields are `Option`; code that can
throw a `TypeError` is modelled in `Except`.
-/

namespace Catalog

/-- A JavaScript runtime error, as produced by `throw` or a `TypeError`.
`status` models the `err.status` property set on purpose-built errors
(absent, i.e. `none`, on runtime `TypeError`s). -/
structure JsError where
  message : String
  status : Option Nat := none
deriving Repr, DecidableEq

/-- The `TypeError` raised by `null.toLowerCase()`. -/
def typeErrorNull : JsError :=
  { message := "Cannot read properties of null (reading 'toLowerCase')" }

/-- An item record from `data/items.json`.  `name`, `category` and `price`
may be `null` (the data model permits it, nothing is validated); `id` is
always a number in the stored data. -/
structure Item where
  id : Int
  name : Option String := none
  category : Option String := none
  price : Option Int := none
deriving Repr, DecidableEq

/-! ## Stats route (`backend/src/routes/stats.js`) -/

/-- The computed stats object: `total = items.length`,
`averagePrice = items.reduce((acc, cur) => acc + cur.price, 0) / items.length`.
A `null` price coerces to `0` under JavaScript `+`; division by a zero
length yields `NaN`, encoded as `none`. -/
structure StatsValue where
  total : Nat
  averagePrice : Option Rat
deriving Repr, DecidableEq

/-- `total` and `averagePrice` as computed inside the stats route's
`fs.readFile` callback. -/
def computeStats (items : List Item) : StatsValue :=
  let total := items.length
  let sum : Int := items.foldl (fun acc cur => acc + cur.price.getD 0) 0
  { total := total
    averagePrice := if total = 0 then none else some ((sum : Rat) / (total : Rat)) }

/-- The module-level cache of `stats.js`:
`let statsCache = null; let lastModified = null;`.
`lastModified` is the file mtime (milliseconds) recorded at the last
recomputation. -/
structure StatsCacheState where
  statsCache : Option StatsValue := none
  lastModified : Option Int := none
deriving Repr, DecidableEq

/-- The observable state of the backing data file at the time of a request:
its modification time (from `fs.stat`) and its parsed content (what
`fs.readFile` would return). -/
structure FileState where
  mtime : Int
  items : List Item
deriving Repr, DecidableEq

/-- One `GET /api/stats` request.  Returns the response body, the new cache
state, and the number of `fs.readFile` calls performed (0 or 1).
Mirrors the route handler: the cache is used exactly when
`statsCache && lastModified && stats.mtime <= lastModified` (both cache
fields are objects, hence truthy exactly when non-null); otherwise the file
is read, stats recomputed, and the cache updated with the mtime observed by
`fs.stat` before the read. -/
def getStats (file : FileState) (st : StatsCacheState) :
    StatsValue × StatsCacheState × Nat :=
  let recompute : StatsValue × StatsCacheState × Nat :=
    (computeStats file.items,
     { statsCache := some (computeStats file.items), lastModified := some file.mtime },
     1)
  match st.statsCache, st.lastModified with
  | some cached, some lm =>
      if file.mtime ≤ lm then (cached, st, 0) else recompute
  | _, _ => recompute

/-! ## Items route (`backend/src/routes/items.js`) -/

/-- `String.prototype.toLowerCase` (the data is ASCII, so per-character
lowering is exact), written on the character list so that it evaluates by
kernel reduction. -/
def lowerStr (s : String) : String :=
  ⟨s.data.map Char.toLower⟩

/-- `String.prototype.trim`: strip leading and trailing whitespace. -/
def trimStr (s : String) : String :=
  ⟨((s.data.dropWhile Char.isWhitespace).reverse.dropWhile Char.isWhitespace).reverse⟩

/-- Accumulate a decimal digit string into a number; `none` when a
non-digit appears. -/
def digitsValAux : List Char → Nat → Option Nat
  | [], acc => some acc
  | c :: cs, acc =>
      if c.isDigit then digitsValAux cs (acc * 10 + (c.toNat - 48)) else none

/-- Parse an optionally signed decimal integer numeral (the only numeric
shape occurring in this data set); `none` for anything else. -/
def parseIntStr (s : String) : Option Int :=
  match s.data with
  | [] => none
  | '-' :: cs =>
      match cs with
      | [] => none
      | _ => (digitsValAux cs 0).map (fun n => -(n : Int))
  | '+' :: cs =>
      match cs with
      | [] => none
      | _ => (digitsValAux cs 0).map (fun n => (n : Int))
  | cs => (digitsValAux cs 0).map (fun n => (n : Int))

/-- A primitive JavaScript value as it occurs in item fields and in the
sort comparator: a number (integral in this data set), a string, `null`,
`undefined` (an absent field), or `NaN` (from a failed numeric parse). -/
inductive JsVal where
  | num (n : Int)
  | str (s : String)
  | null
  | notDefined
  | nan
deriving Repr, DecidableEq

/-- JavaScript `ToNumber` on primitives, with `none` encoding `NaN`.
`null` coerces to `0`; `undefined` (`notDefined`) and `NaN` stay non-numeric; a string is
trimmed and parsed (this data set only ever holds integer numerals, so the
parse is modelled with integer literals). -/
def jsToNumber : JsVal → Option Int
  | .num n => some n
  | .str s => let t := trimStr s; if t = "" then some 0 else parseIntStr t
  | .null => some 0
  | .notDefined => none
  | .nan => none

/-- JavaScript `String.prototype.includes`: substring containment. -/
def strIncludes (s pat : String) : Bool :=
  (List.range (s.data.length + 1)).any (fun i => pat.data.isPrefixOf (s.data.drop i))

/-- JavaScript `<` on primitive values: two strings compare
lexicographically, any other pair compares numerically after `ToNumber`;
a comparison involving `NaN` is `false`. -/
def jsLt (a b : JsVal) : Bool :=
  match a, b with
  | .str x, .str y => decide (x.data < y.data)
  | _, _ =>
      match jsToNumber a, jsToNumber b with
      | some x, some y => decide (x < y)
      | _, _ => false

/-- JavaScript `parseFloat` restricted to this data set (integer numerals
only; anything else is `NaN`). -/
def jsParseFloat (s : String) : JsVal :=
  match parseIntStr (trimStr s) with
  | some n => .num n
  | none => .nan

/-- The `sortBy` query parameter names a field of the item; any other
string indexes an absent field (`item[sortBy] === undefined`). -/
inductive SortField where
  | id
  | name
  | category
  | price
  | other
deriving Repr, DecidableEq

/-- Field access `item[sortBy]`, with `null` fields yielding `.null` and
unknown fields yielding `.notDefined`. -/
def Item.field (it : Item) : SortField → JsVal
  | .id => .num it.id
  | .name => (it.name.map JsVal.str).getD .null
  | .category => (it.category.map JsVal.str).getD .null
  | .price => (it.price.map JsVal.num).getD .null
  | .other => .notDefined

/-- The in-route sort comparator:
string `aVal` is lowercased together with `bVal` (a `TypeError` if `bVal`
has no `toLowerCase`), then `desc` returns `aVal < bVal ? 1 : aVal > bVal
? -1 : 0` and any other `sortOrder` the reverse. -/
def itemCompare (sortBy : SortField) (sortOrder : String) (a b : Item) :
    Except JsError Int :=
  let cmp : JsVal → JsVal → Int := fun av bv =>
    if sortOrder = "desc" then
      if jsLt av bv then 1 else if jsLt bv av then -1 else 0
    else
      if jsLt bv av then 1 else if jsLt av bv then -1 else 0
  match a.field sortBy, b.field sortBy with
  | .str sa, .str sb => .ok (cmp (.str (lowerStr sa)) (.str (lowerStr sb)))
  | .str _, _ => .error typeErrorNull
  | av, bv => .ok (cmp av bv)

/-- The comparator with errors defaulted to `0`, used as the sort key
once error freedom has been established. -/
def itemCompareD (sortBy : SortField) (sortOrder : String) (a b : Item) : Int :=
  match itemCompare sortBy sortOrder a b with
  | .ok c => c
  | .error _ => 0

/-- Insert `a` into `l` before the first element it compares
less-or-equal to — the insertion step of a stable insertion sort. -/
def jsInsert (le : α → α → Bool) (a : α) : List α → List α
  | [] => [a]
  | b :: l => if le a b then a :: b :: l else b :: jsInsert le a l

/-- A stable sort by a boolean comparator (insertion sort).  ECMAScript
only fixes the result of `Array.prototype.sort` up to stability when the
comparator is consistent, which every claim below assumes, so any stable
sort is a faithful model. -/
def jsSortBy (le : α → α → Bool) : List α → List α
  | [] => []
  | a :: l => jsInsert le a (jsSortBy le l)

/-- `filteredResults.sort(comparator)`: a stable sort by the comparator.
When the comparator throws on some pair of elements the call fails with
that error (the engine visits a subset of pairs, so this over-approximates
the throwing inputs; every claim below uses it only on error-free data). -/
def sortItems (sortBy : SortField) (sortOrder : String) (items : List Item) :
    Except JsError (List Item) :=
  if items.all (fun a => items.all (fun b => (itemCompare sortBy sortOrder a b).isOk))
  then .ok (jsSortBy (fun a b => decide (itemCompareD sortBy sortOrder a b ≤ 0)) items)
  else .error typeErrorNull

/-- ECMAScript `Array.prototype.slice(start, end)` with possibly negative
indices: each bound is offset from the end when negative, then clamped to
`[0, length]`, and the elements in `[start, end)` are returned. -/
def jsSlice (l : List α) (s e : Int) : List α :=
  let len : Int := l.length
  let lo := if s < 0 then max (len + s) 0 else min s len
  let hi := if e < 0 then max (len + e) 0 else min e len
  (l.drop lo.toNat).take (hi.toNat - lo.toNat)

/-- A JavaScript number that may be infinite or `NaN`, as produced by
`Math.ceil(totalItems / limitNum)` when `limitNum` is `0`. -/
inductive JsNumber where
  | int (n : Int)
  | posInf
  | nan
deriving Repr, DecidableEq

/-- `Math.ceil(t / l)` for a nonnegative integer `t` and integer `l`:
division by zero yields `Infinity` (or `NaN` for `0 / 0`), otherwise the
exact ceiling of the rational quotient. -/
def mathCeilDiv (t : Nat) (l : Int) : JsNumber :=
  if l = 0 then (if t = 0 then .nan else .posInf)
  else if 0 < l then .int (((t : Int) + l - 1) / l)
  else .int (-((t : Int) / (-l)))

/-- JavaScript `<` between an integer and a possibly infinite number
(`pageNum < totalPages`). -/
def jsLtIntNumber (a : Int) (b : JsNumber) : Bool :=
  match b with
  | .int m => decide (a < m)
  | .posInf => true
  | .nan => false

/-- `Array.prototype.filter` with a predicate that may throw: elements are
tested left to right and the first error aborts the whole call. -/
def filterM (p : α → Except JsError Bool) : List α → Except JsError (List α)
  | [] => .ok []
  | a :: l =>
      match p a with
      | .error e => .error e
      | .ok b =>
          match filterM p l with
          | .error e => .error e
          | .ok r => .ok (if b then a :: r else r)

/-- The text-search predicate of the list route:
`item.name.toLowerCase().includes(searchTerm) ||
 item.category.toLowerCase().includes(searchTerm)` with
`searchTerm = q.toLowerCase().trim()`; a `null` name (or, when the name
does not match, a `null` category) raises a `TypeError`. -/
def listTextPred (q : String) (item : Item) : Except JsError Bool :=
  let searchTerm := trimStr (lowerStr q)
  match item.name with
  | none => .error typeErrorNull
  | some n =>
      if strIncludes (lowerStr n) searchTerm then .ok true
      else
        match item.category with
        | none => .error typeErrorNull
        | some c => .ok (strIncludes (lowerStr c) searchTerm)

/-- The category predicate of the list route:
`item.category.toLowerCase() === category.toLowerCase().trim()`. -/
def listCatPred (category : String) (item : Item) : Except JsError Bool :=
  match item.category with
  | none => .error typeErrorNull
  | some c => .ok (lowerStr c = trimStr (lowerStr category))

/-- Query parameters of `GET /api/items`, after the route's
`parseInt` of `limit` and `page`; the defaults are those destructured from
`req.query`. -/
structure ListParams where
  limit : Int := 10
  page : Int := 1
  q : String := ""
  sortBy : SortField := .id
  sortOrder : String := "asc"
  category : String := ""
deriving Repr, DecidableEq

/-- The filtering stage of the list route: the text filter runs only when
`q.trim()` is truthy (non-empty), then the category filter only when
`category.trim()` is truthy. -/
def listFilter (p : ListParams) (items : List Item) : Except JsError (List Item) :=
  match (if trimStr p.q ≠ "" then filterM (listTextPred p.q) items else .ok items) with
  | .error e => .error e
  | .ok r =>
      if trimStr p.category ≠ "" then filterM (listCatPred p.category) r else .ok r

/-- The pagination metadata block of both list-shaped responses. -/
structure Pagination where
  currentPage : Int
  totalPages : JsNumber
  totalItems : Nat
  itemsPerPage : Int
  hasNextPage : Bool
  hasPrevPage : Bool
deriving Repr, DecidableEq

/-- The `filters` echo of the list route response. -/
structure ListFiltersEcho where
  search : String
  category : String
  sortBy : SortField
  sortOrder : String
deriving Repr, DecidableEq

/-- The body of a successful `GET /api/items` response. -/
structure ListResponse where
  data : List Item
  pagination : Pagination
  filters : ListFiltersEcho
deriving Repr, DecidableEq

/-- The successful response body of the list route, assembled from the
filtered collection (for the metadata, taken before sorting and
pagination) and the sorted collection (for the page):
`offset = (pageNum - 1) * limitNum`, the page is
`sorted.slice(offset, offset + limitNum)`, and
`totalPages = Math.ceil(totalItems / limitNum)`. -/
def listOut (p : ListParams) (filteredResults sorted : List Item) : ListResponse :=
  let offset := (p.page - 1) * p.limit
  let totalItems := filteredResults.length
  let totalPages := mathCeilDiv totalItems p.limit
  { data := jsSlice sorted offset (offset + p.limit)
    pagination :=
      { currentPage := p.page
        totalPages := totalPages
        totalItems := totalItems
        itemsPerPage := p.limit
        hasNextPage := jsLtIntNumber p.page totalPages
        hasPrevPage := decide (1 < p.page) }
    filters :=
      { search := p.q
        category := p.category
        sortBy := p.sortBy
        sortOrder := p.sortOrder } }

/-- The `GET /api/items` handler: read the data, filter by `q` and
`category`, take the filtered count for the pagination metadata, sort,
slice out the requested page, and respond. -/
def listHandler (items : List Item) (p : ListParams) : Except JsError ListResponse :=
  match listFilter p items with
  | .error e => .error e
  | .ok filteredResults =>
      match sortItems p.sortBy p.sortOrder filteredResults with
      | .error e => .error e
      | .ok sorted => .ok (listOut p filteredResults sorted)

/-- Query parameters of `GET /api/items/search` (the advanced variant),
again after `parseInt` of `limit` and `page`; the price bounds stay raw
strings, as destructured. -/
structure SearchParams where
  q : String := ""
  category : String := ""
  minPrice : String := ""
  maxPrice : String := ""
  limit : Int := 10
  page : Int := 1
  sortBy : SortField := .id
  sortOrder : String := "asc"
deriving Repr, DecidableEq

/-- `item.price` as a JavaScript value (`null` when absent). -/
def Item.priceVal (it : Item) : JsVal :=
  (it.price.map JsVal.num).getD .null

/-- The predicate of the `searchItems` helper, one item at a time:
text match on name or category, exact (case-folded) category match, then
inclusive price bounds, where a bound applies only when the raw string is
truthy and `item.price < parseFloat(minPrice)` (resp. `>` for the upper
bound) rejects the item. -/
def searchPred (f : SearchParams) (item : Item) : Except JsError Bool :=
  let textStep : Except JsError Bool :=
    if f.q ≠ "" ∧ trimStr f.q ≠ "" then
      let searchTerm := trimStr (lowerStr f.q)
      match item.name with
      | none => .error typeErrorNull
      | some n =>
          if strIncludes (lowerStr n) searchTerm then .ok true
          else
            match item.category with
            | none => .error typeErrorNull
            | some c => .ok (strIncludes (lowerStr c) searchTerm)
    else .ok true
  match textStep with
  | .error e => .error e
  | .ok matchesText =>
      if ¬ matchesText then .ok false
      else
        let catStep : Except JsError Bool :=
          if f.category ≠ "" ∧ trimStr f.category ≠ "" then
            match item.category with
            | none => .error typeErrorNull
            | some c => .ok (lowerStr c = trimStr (lowerStr f.category))
          else .ok true
        match catStep with
        | .error e => .error e
        | .ok matchesCat =>
            if ¬ matchesCat then .ok false
            else if f.minPrice ≠ "" ∧ jsLt item.priceVal (jsParseFloat f.minPrice)
            then .ok false
            else if f.maxPrice ≠ "" ∧ jsLt (jsParseFloat f.maxPrice) item.priceVal
            then .ok false
            else .ok true

/-- The `searchItems(items, filters)` helper: one `filter` pass with the
combined predicate. -/
def searchItems (items : List Item) (f : SearchParams) :
    Except JsError (List Item) :=
  filterM (searchPred f) items

/-- The `filters` echo of the search route response. -/
structure SearchFiltersEcho where
  search : String
  category : String
  minPrice : String
  maxPrice : String
  sortBy : SortField
  sortOrder : String
deriving Repr, DecidableEq

/-- The body of a successful `GET /api/items/search` response. -/
structure SearchResponse where
  data : List Item
  pagination : Pagination
  filters : SearchFiltersEcho
deriving Repr, DecidableEq

/-- The successful response body of the search route, assembled like
`listOut` but with the advanced-search filter echo. -/
def searchOut (p : SearchParams) (filteredResults sorted : List Item) : SearchResponse :=
  let offset := (p.page - 1) * p.limit
  let totalItems := filteredResults.length
  let totalPages := mathCeilDiv totalItems p.limit
  { data := jsSlice sorted offset (offset + p.limit)
    pagination :=
      { currentPage := p.page
        totalPages := totalPages
        totalItems := totalItems
        itemsPerPage := p.limit
        hasNextPage := jsLtIntNumber p.page totalPages
        hasPrevPage := decide (1 < p.page) }
    filters :=
      { search := p.q
        category := p.category
        minPrice := p.minPrice
        maxPrice := p.maxPrice
        sortBy := p.sortBy
        sortOrder := p.sortOrder } }

/-- The `GET /api/items/search` handler: `searchItems`, filtered count,
sort, slice, respond. -/
def searchHandler (items : List Item) (p : SearchParams) :
    Except JsError SearchResponse :=
  match searchItems items p with
  | .error e => .error e
  | .ok filteredResults =>
      match sortItems p.sortBy p.sortOrder filteredResults with
      | .error e => .error e
      | .ok sorted => .ok (searchOut p filteredResults sorted)

/-! ### Categories, item lookup, creation, error handling -/

/-- The worker of `setDedup`: emit each element not seen before, tracking
the seen values. -/
def setDedupGo [DecidableEq α] (seen : List α) : List α → List α
  | [] => []
  | a :: l => if a ∈ seen then setDedupGo seen l else a :: setDedupGo (a :: seen) l

/-- `[...new Set(xs)]`: deduplication keeping the first occurrence of each
value, in encounter order. -/
def setDedup [DecidableEq α] (l : List α) : List α := setDedupGo [] l

/-- The string a category value sorts by under the default (comparator-less)
`Array.prototype.sort`, which compares `String(x)`: `null` prints as
`"null"`. -/
def categoryKey : Option String → String
  | some s => s
  | none => "null"

/-- The `getCategories` helper:
`[...new Set(data.map(item => item.category))].sort()` — distinct category
values (strict equality, so case-sensitive), sorted by their string form. -/
def getCategories (items : List Item) : List (Option String) :=
  jsSortBy (fun a b => decide ((categoryKey a).data ≤ (categoryKey b).data))
    (setDedup (items.map (·.category)))

/-- A JSON body, modelled as its key/value fields (all values in the error
bodies at issue are strings). -/
def JsonFields := List (String × String)
deriving instance DecidableEq, Repr for JsonFields

/-- The production error-handling middleware
(`backend/src/middleware/errorHandler.js`, non-development mode):
`res.status(err.status || 500).json({ message: err.message })`; a missing
or zero (falsy) status becomes 500. -/
def errorHandlerMw (e : JsError) : Nat × JsonFields :=
  (match e.status with
   | some s => if s = 0 then 500 else s
   | none => 500,
   [("message", e.message)])

/-- An HTTP outcome of a route: a success body, or an error status and
JSON error body produced by the error-handling middleware. -/
inductive RouteResult (α : Type) where
  | ok (status : Nat) (body : α)
  | err (status : Nat) (body : JsonFields)
deriving Repr, DecidableEq

/-- Lift a handler outcome into a full route outcome through the
error-handling middleware. -/
def runRoute (status : Nat) : Except JsError α → RouteResult α
  | .ok a => .ok status a
  | .error e => .err (errorHandlerMw e).1 (errorHandlerMw e).2

/-- `GET /api/items` as served, error middleware included. -/
def listRoute (items : List Item) (p : ListParams) : RouteResult ListResponse :=
  runRoute 200 (listHandler items p)

/-- `GET /api/items/search` as served, error middleware included. -/
def searchRoute (items : List Item) (p : SearchParams) : RouteResult SearchResponse :=
  runRoute 200 (searchHandler items p)

/-- `GET /api/items/:id`: `data.find(i => i.id === parseInt(req.params.id))`;
a miss throws `Error('Item not found')` with `status = 404`, which the
middleware renders. -/
def getItemRoute (items : List Item) (idNum : Int) : RouteResult Item :=
  match items.find? (fun i => i.id = idNum) with
  | some it => .ok 200 it
  | none => runRoute 200 (.error { message := "Item not found", status := some 404 })

/-- The unvalidated body of `POST /api/items` (an item without an id). -/
structure NewItem where
  name : Option String := none
  category : Option String := none
  price : Option Int := none
deriving Repr, DecidableEq

/-- `POST /api/items`: assign `item.id = Date.now()` (`now`, in
milliseconds), push onto the collection, persist, and respond 201 with the
created item.  Returns the created item and the persisted collection. -/
def createItem (items : List Item) (body : NewItem) (now : Int) :
    Item × List Item :=
  let item : Item :=
    { id := now, name := body.name, category := body.category, price := body.price }
  (item, items ++ [item])

/-! ### Shared lemmas about the pipeline pieces -/

/-- Unwrap a fallible boolean predicate, defaulting errors to `false`. -/
def okD : Except JsError Bool → Bool
  | .ok b => b
  | .error _ => false

theorem filterM_eq_filter (p : α → Except JsError Bool) :
    ∀ l : List α, (∀ a ∈ l, (p a).isOk = true) →
      filterM p l = .ok (l.filter (fun a => okD (p a)))
  | [], _ => rfl
  | a :: l, h => by
      have ha := h a (List.mem_cons_self a l)
      cases hpa : p a with
      | error e => rw [hpa] at ha; simp [Except.isOk, Except.toBool] at ha
      | ok b =>
          have ih := filterM_eq_filter p l (fun x hx => h x (List.mem_cons_of_mem _ hx))
          cases b <;> simp [filterM, hpa, ih, List.filter_cons, okD]

theorem jsInsert_perm (le : α → α → Bool) (a : α) :
    ∀ l : List α, (jsInsert le a l).Perm (a :: l)
  | [] => List.Perm.refl _
  | b :: l => by
      unfold jsInsert
      by_cases hab : le a b = true
      · simp [hab]
      · simp only [hab, if_false]
        exact ((jsInsert_perm le a l).cons b).trans (List.Perm.swap a b l)

theorem jsSortBy_perm (le : α → α → Bool) :
    ∀ l : List α, (jsSortBy le l).Perm l
  | [] => List.Perm.refl _
  | a :: l =>
      (jsInsert_perm le a (jsSortBy le l)).trans ((jsSortBy_perm le l).cons a)

theorem jsSortBy_length (le : α → α → Bool) (l : List α) :
    (jsSortBy le l).length = l.length :=
  (jsSortBy_perm le l).length_eq

theorem jsSortBy_mem (le : α → α → Bool) (l : List α) (a : α) :
    a ∈ jsSortBy le l ↔ a ∈ l :=
  (jsSortBy_perm le l).mem_iff

theorem jsInsert_mem (le : α → α → Bool) (a x : α) (l : List α) :
    x ∈ jsInsert le a l ↔ x = a ∨ x ∈ l := by
  rw [(jsInsert_perm le a l).mem_iff, List.mem_cons]

/-- Sortedness of `jsInsert`, relative to a property `P` that all the
involved elements satisfy and under which `le` is transitive and total. -/
theorem pairwise_jsInsert {P : α → Prop} {le : α → α → Bool}
    (trans : ∀ a b c, P a → P b → P c → le a b = true → le b c = true → le a c = true)
    (total : ∀ a b, P a → P b → le a b = true ∨ le b a = true) :
    ∀ {a : α} {l : List α}, P a → (∀ x ∈ l, P x) →
      l.Pairwise (fun x y => le x y = true) →
      (jsInsert le a l).Pairwise (fun x y => le x y = true)
  | a, [], _, _, _ => by simp [jsInsert]
  | a, b :: l, hPa, hPl, hl => by
      have hPb : P b := hPl b (List.mem_cons_self b l)
      have hPl' : ∀ x ∈ l, P x := fun x hx => hPl x (List.mem_cons_of_mem _ hx)
      rw [List.pairwise_cons] at hl
      unfold jsInsert
      by_cases hab : le a b = true
      · simp only [hab, if_true]
        rw [List.pairwise_cons]
        refine ⟨?_, List.pairwise_cons.mpr hl⟩
        intro x hx
        rcases List.mem_cons.mp hx with rfl | hx
        · exact hab
        · exact trans a b x hPa hPb (hPl' x hx) hab (hl.1 x hx)
      · have hba : le b a = true := (total a b hPa hPb).resolve_left hab
        rw [if_neg hab]
        rw [List.pairwise_cons]
        refine ⟨?_, pairwise_jsInsert trans total hPa hPl' hl.2⟩
        intro x hx
        rcases (jsInsert_mem le a x l).mp hx with rfl | hx
        · exact hba
        · exact hl.1 x hx

/-- Sortedness of `jsSortBy`, relative to a property `P` of the list
elements under which `le` is transitive and total. -/
theorem pairwise_jsSortBy {P : α → Prop} {le : α → α → Bool}
    (trans : ∀ a b c, P a → P b → P c → le a b = true → le b c = true → le a c = true)
    (total : ∀ a b, P a → P b → le a b = true ∨ le b a = true) :
    ∀ {l : List α}, (∀ x ∈ l, P x) →
      (jsSortBy le l).Pairwise (fun x y => le x y = true)
  | [], _ => by simp [jsSortBy]
  | a :: l, hPl => by
      have hPa : P a := hPl a (List.mem_cons_self a l)
      have hPl' : ∀ x ∈ l, P x := fun x hx => hPl x (List.mem_cons_of_mem _ hx)
      unfold jsSortBy
      exact pairwise_jsInsert trans total hPa
        (fun x hx => hPl' x ((jsSortBy_mem le l x).mp hx))
        (pairwise_jsSortBy trans total hPl')

theorem sortItems_length {f : SortField} {o : String} {l out : List Item}
    (h : sortItems f o l = .ok out) : out.length = l.length := by
  unfold sortItems at h
  split at h
  · cases h; exact jsSortBy_length _ _
  · cases h

theorem sortItems_mem {f : SortField} {o : String} {l out : List Item}
    (h : sortItems f o l = .ok out) : ∀ a, a ∈ out ↔ a ∈ l := by
  unfold sortItems at h
  split at h
  · cases h; exact fun a => jsSortBy_mem _ _ a
  · cases h

theorem jsSlice_length_pos (l : List α) (off lim : Int)
    (hoff : 0 ≤ off) (hlim : 0 < lim) :
    ((jsSlice l off (off + lim)).length : Int) =
      min lim (max 0 ((l.length : Int) - off)) := by
  unfold jsSlice
  have h1 : ¬ off < 0 := by omega
  have h2 : ¬ off + lim < 0 := by omega
  simp only [h1, h2, if_false, List.length_take, List.length_drop]
  omega

theorem jsSlice_zero_len (l : List α) (off : Int) (hoff : 0 ≤ off) :
    jsSlice l off off = [] := by
  unfold jsSlice
  have h1 : ¬ off < 0 := by omega
  simp only [h1, if_false]
  have : (min off (l.length : Int)).toNat - (min off (l.length : Int)).toNat = 0 := by
    omega
  simp [this]

theorem jsSlice_neg_one (l : List α) : jsSlice l 0 (-1) = l.dropLast := by
  unfold jsSlice
  have h1 : ¬ (0 : Int) < 0 := by omega
  have h2 : (-1 : Int) < 0 := by omega
  simp only [h1, h2, if_false, if_true]
  have hlo : (min (0 : Int) (l.length : Int)).toNat = 0 := by omega
  have hhi : (max ((l.length : Int) + -1) 0).toNat = l.length - 1 := by omega
  simp [hlo, hhi, List.dropLast_eq_take]

theorem listHandler_ok {items : List Item} {p : ListParams} {resp : ListResponse} :
    listHandler items p = .ok resp ↔
      ∃ fl sorted, listFilter p items = .ok fl ∧
        sortItems p.sortBy p.sortOrder fl = .ok sorted ∧
        resp = listOut p fl sorted := by
  unfold listHandler
  cases hfl : listFilter p items with
  | error e => simp [hfl]
  | ok fl =>
      cases hsort : sortItems p.sortBy p.sortOrder fl with
      | error e => simp [hfl, hsort]
      | ok sorted => simp [hfl, hsort, eq_comm]

theorem searchHandler_ok {items : List Item} {p : SearchParams} {resp : SearchResponse} :
    searchHandler items p = .ok resp ↔
      ∃ fl sorted, searchItems items p = .ok fl ∧
        sortItems p.sortBy p.sortOrder fl = .ok sorted ∧
        resp = searchOut p fl sorted := by
  unfold searchHandler
  cases hfl : searchItems items p with
  | error e => simp [hfl]
  | ok fl =>
      cases hsort : sortItems p.sortBy p.sortOrder fl with
      | error e => simp [hfl, hsort]
      | ok sorted => simp [hfl, hsort, eq_comm]

/-- The specification's ceiling division on naturals:
`ceil(t / m) = (t + m - 1) / m` for `m > 0`. -/
def ceilNat (t m : Nat) : Nat := (t + m - 1) / m

theorem mathCeilDiv_eq_ceilNat (t : Nat) (l : Int) (hl : 0 < l) :
    mathCeilDiv t l = .int ((ceilNat t l.toNat : Nat) : Int) := by
  unfold mathCeilDiv ceilNat
  have hne : l ≠ 0 := by omega
  simp only [hne, if_false, hl, if_true]
  congr 1
  obtain ⟨m, rfl⟩ : ∃ m : Nat, l = (m : Int) := ⟨l.toNat, by omega⟩
  have hm : 0 < m := by exact_mod_cast hl
  have hcast : (t : Int) + (m : Int) - 1 = ((t + m - 1 : Nat) : Int) := by omega
  rw [hcast, ← Int.ofNat_ediv, Int.toNat_ofNat]

theorem mathCeilDiv_pos (t : Nat) (l : Int) (hl : 0 < l) :
    ∃ z : Int, mathCeilDiv t l = .int z ∧
      (z - 1) * l < (t : Int) ∧ (t : Int) ≤ z * l := by
  have hne : l ≠ 0 := by omega
  refine ⟨((t : Int) + l - 1) / l, by simp [mathCeilDiv, hne, hl], ?_, ?_⟩ <;>
  · have key := Int.ediv_add_emod ((t : Int) + l - 1) l
    have hr0 : 0 ≤ ((t : Int) + l - 1) % l := Int.emod_nonneg _ hne
    have hrl : ((t : Int) + l - 1) % l < l := Int.emod_lt_of_pos _ hl
    nlinarith [key, hr0, hrl]

/-- The three-item collection used by the repository's test suite and by
the spec's scenarios. -/
def mockItems : List Item :=
  [{ id := 1, name := some "Laptop Pro", category := some "Electronics", price := some 2499 },
   { id := 2, name := some "Headphones", category := some "Electronics", price := some 399 },
   { id := 3, name := some "Monitor", category := some "Electronics", price := some 999 }]

end Catalog

namespace Catalog

/-- C1 helper: the cache-hit condition of the stats route. -/
def cacheValid (file : FileState) (st : StatsCacheState) : Prop :=
  ∃ c lm, st.statsCache = some c ∧ st.lastModified = some lm ∧ file.mtime ≤ lm

instance (file : FileState) (st : StatsCacheState) : Decidable (cacheValid file st) := by
  unfold cacheValid
  cases hc : st.statsCache with
  | none => exact .isFalse (by simp [hc])
  | some c =>
    cases hl : st.lastModified with
    | none => exact .isFalse (by simp [hc, hl])
    | some lm =>
      by_cases h : file.mtime ≤ lm
      · exact .isTrue ⟨c, lm, rfl, rfl, h⟩
      · exact .isFalse (by simp [hc, hl, h])

/-- The cold cache at process start: `statsCache = null`, `lastModified = null`. -/
def coldCache : StatsCacheState := {}

/-- **C1** — For every sequence of `getStats` calls the cached value is
returned, with no file read and no recomputation, exactly when a cached
value is present and the recorded time is at least the file's current
modification time; otherwise the file is read once, stats are recomputed
from its content, and the cache records the modification time observed
before the read.  Consequently two consecutive calls with an unmodified
file perform exactly one read from a cold cache, and a newer modification
time forces a second read. -/
theorem stats_cache_staleness_contract :
    (∀ file st c lm, st.statsCache = some c → st.lastModified = some lm →
        file.mtime ≤ lm → getStats file st = (c, st, 0))
    ∧ (∀ file st, ¬ cacheValid file st →
        getStats file st =
          (computeStats file.items,
           { statsCache := some (computeStats file.items),
             lastModified := some file.mtime }, 1))
    ∧ (∀ file st, (getStats file st).2.2 = 0 ↔ cacheValid file st)
    ∧ (∀ file, (getStats file coldCache).2.2 = 1 ∧
        (getStats file (getStats file coldCache).2.1).2.2 = 0)
    ∧ (∀ file file₂, file.mtime < file₂.mtime →
        (getStats file₂ (getStats file coldCache).2.1).2.2 = 1 ∧
        (getStats file₂ (getStats file coldCache).2.1).1 = computeStats file₂.items) := by
  refine ⟨?_, ?_, ?_, ?_, ?_⟩
  · intro file st c lm hc hl hle
    simp [getStats, hc, hl, hle]
  · intro file st hnv
    unfold getStats
    cases hc : st.statsCache with
    | none => simp
    | some c =>
      cases hl : st.lastModified with
      | none => simp
      | some lm =>
        have : ¬ file.mtime ≤ lm := fun hle => hnv ⟨c, lm, hc, hl, hle⟩
        simp [this]
  · intro file st
    unfold getStats cacheValid
    cases hc : st.statsCache with
    | none => simp
    | some c =>
      cases hl : st.lastModified with
      | none => simp
      | some lm =>
        by_cases hle : file.mtime ≤ lm <;> simp [hle]
  · intro file
    constructor
    · simp [getStats, coldCache]
    · simp [getStats, coldCache]
  · intro file file₂ hlt
    have hn : ¬ file₂.mtime ≤ file.mtime := by omega
    constructor
    · simp [getStats, coldCache, hn]
    · simp [getStats, coldCache, hn]

/-- Witness for C1 at concrete inputs: a warm valid cache is served without
a read; a cold cache reads once and an unmodified file then hits; a bumped
modification time forces a second read. -/
theorem stats_cache_staleness_contract_witness :
    getStats ⟨5, []⟩ ⟨some ⟨0, none⟩, some 7⟩ = (⟨0, none⟩, ⟨some ⟨0, none⟩, some 7⟩, 0)
    ∧ (getStats ⟨5, []⟩ coldCache).2.2 = 1
    ∧ (getStats ⟨5, []⟩ (getStats ⟨5, []⟩ coldCache).2.1).2.2 = 0
    ∧ (getStats ⟨6, []⟩ (getStats ⟨5, []⟩ coldCache).2.1).2.2 = 1 :=
  ⟨stats_cache_staleness_contract.1 ⟨5, []⟩ ⟨some ⟨0, none⟩, some 7⟩ ⟨0, none⟩ 7
      rfl rfl (by decide),
   (stats_cache_staleness_contract.2.2.2.1 ⟨5, []⟩).1,
   (stats_cache_staleness_contract.2.2.2.1 ⟨5, []⟩).2,
   (stats_cache_staleness_contract.2.2.2.2 ⟨5, []⟩ ⟨6, []⟩ (by decide)).1⟩

/-- **C2** — For every item collection, every `limit > 0` and every
`page ≥ 1`, a successful response of the list and of the search endpoint
carries a page of length `min(limit, max(0, totalItems - (page-1)*limit))`,
where `totalItems` is the size of the filtered collection. -/
theorem page_length_formula :
    (∀ (items : List Item) (p : ListParams) (resp : ListResponse),
        0 < p.limit → 1 ≤ p.page → listHandler items p = .ok resp →
        (listFilter p items).map List.length = .ok resp.pagination.totalItems ∧
        (resp.data.length : Int) =
          min p.limit (max 0 ((resp.pagination.totalItems : Int) -
            (p.page - 1) * p.limit)))
    ∧ (∀ (items : List Item) (p : SearchParams) (resp : SearchResponse),
        0 < p.limit → 1 ≤ p.page → searchHandler items p = .ok resp →
        (searchItems items p).map List.length = .ok resp.pagination.totalItems ∧
        (resp.data.length : Int) =
          min p.limit (max 0 ((resp.pagination.totalItems : Int) -
            (p.page - 1) * p.limit))) := by
  constructor
  · intro items p resp hl hp hok
    obtain ⟨fl, sorted, hfl, hsort, rfl⟩ := listHandler_ok.mp hok
    have hoff : 0 ≤ (p.page - 1) * p.limit := mul_nonneg (by omega) (by omega)
    have hslice := jsSlice_length_pos sorted ((p.page - 1) * p.limit) p.limit hoff hl
    have hlen := sortItems_length hsort
    refine ⟨by rw [hfl]; rfl, ?_⟩
    simp only [listOut]
    rw [hslice, hlen]
  · intro items p resp hl hp hok
    obtain ⟨fl, sorted, hfl, hsort, rfl⟩ := searchHandler_ok.mp hok
    have hoff : 0 ≤ (p.page - 1) * p.limit := mul_nonneg (by omega) (by omega)
    have hslice := jsSlice_length_pos sorted ((p.page - 1) * p.limit) p.limit hoff hl
    have hlen := sortItems_length hsort
    refine ⟨by rw [hfl]; rfl, ?_⟩
    simp only [searchOut]
    rw [hslice, hlen]

/-- Witness for C2: the mock collection with `limit = 2`, `page = 1` on the
list endpoint and `limit = 2`, `page = 2` on the search endpoint. -/
theorem page_length_formula_witness :
    (((listFilter { limit := 2 } mockItems).map List.length =
        .ok (listOut { limit := 2 } mockItems mockItems).pagination.totalItems) ∧
      (((listOut { limit := 2 } mockItems mockItems).data.length : Int)) =
        min 2 (max 0
          (((listOut { limit := 2 } mockItems mockItems).pagination.totalItems : Int) -
            (1 - 1) * 2)))
    ∧ (((searchItems mockItems { limit := 2, page := 2 }).map List.length =
        .ok (searchOut { limit := 2, page := 2 } mockItems mockItems).pagination.totalItems) ∧
      (((searchOut { limit := 2, page := 2 } mockItems mockItems).data.length : Int)) =
        min 2 (max 0
          (((searchOut { limit := 2, page := 2 }
              mockItems mockItems).pagination.totalItems : Int) - (2 - 1) * 2))) :=
  ⟨page_length_formula.1 mockItems { limit := 2 }
      (listOut { limit := 2 } mockItems mockItems) (by decide) (by decide) (by rfl),
   page_length_formula.2 mockItems { limit := 2, page := 2 }
      (searchOut { limit := 2, page := 2 } mockItems mockItems)
      (by decide) (by decide) (by rfl)⟩

/-- **C3** — For every query with `limit > 0`, the pagination metadata of
the list endpoint satisfies `totalPages == ceil(totalItems / limit)`
(certified by `(totalPages - 1) * limit < totalItems ≤ totalPages * limit`),
`hasNextPage == (page < totalPages)` and `hasPrevPage == (page > 1)`, with
`totalItems` the size of the filtered set, taken before sorting and before
pagination. -/
theorem pagination_metadata_consistent :
    ∀ (items : List Item) (p : ListParams) (resp : ListResponse),
      0 < p.limit → listHandler items p = .ok resp →
      resp.pagination.totalPages =
        .int ((ceilNat resp.pagination.totalItems p.limit.toNat : Nat) : Int)
      ∧ (((ceilNat resp.pagination.totalItems p.limit.toNat : Nat) : Int) - 1) * p.limit
          < (resp.pagination.totalItems : Int)
      ∧ (resp.pagination.totalItems : Int)
          ≤ ((ceilNat resp.pagination.totalItems p.limit.toNat : Nat) : Int) * p.limit
      ∧ resp.pagination.hasNextPage =
          decide (p.page < ((ceilNat resp.pagination.totalItems p.limit.toNat : Nat) : Int))
      ∧ resp.pagination.hasPrevPage = decide (1 < p.page)
      ∧ (listFilter p items).map List.length = .ok resp.pagination.totalItems := by
  intro items p resp hl hok
  obtain ⟨fl, sorted, hfl, hsort, rfl⟩ := listHandler_ok.mp hok
  have hceil := mathCeilDiv_eq_ceilNat fl.length p.limit hl
  obtain ⟨z, hz, hlo, hhi⟩ := mathCeilDiv_pos fl.length p.limit hl
  have hzz : ((ceilNat fl.length p.limit.toNat : Nat) : Int) = z := by
    have h := hceil.symm.trans hz
    simpa using h
  refine ⟨?_, ?_, ?_, ?_, ?_, ?_⟩
  · simpa [listOut] using hceil
  · show (((ceilNat fl.length p.limit.toNat : Nat) : Int) - 1) * p.limit
        < ((fl.length : Nat) : Int)
    rw [hzz]; exact hlo
  · show ((fl.length : Nat) : Int)
        ≤ ((ceilNat fl.length p.limit.toNat : Nat) : Int) * p.limit
    rw [hzz]; exact hhi
  · show jsLtIntNumber p.page (mathCeilDiv fl.length p.limit) = _
    rw [hceil]; rfl
  · rfl
  · rw [hfl]; rfl

/-- Witness for C3: the metadata of the mock collection at `limit = 2`. -/
theorem pagination_metadata_consistent_witness :
    (listOut { limit := 2 } mockItems mockItems).pagination.totalPages =
      .int ((ceilNat (listOut { limit := 2 } mockItems mockItems).pagination.totalItems
        ((2 : Int)).toNat : Nat) : Int) :=
  (pagination_metadata_consistent mockItems { limit := 2 }
      (listOut { limit := 2 } mockItems mockItems) (by decide) rfl).1

/-- **C4 counterexample** — against the mock collection, requesting id 999
does yield status 404, but the production error middleware keys the body
as `message`, so the response is not `{error: "Item not found"}`. -/
theorem item_not_found_error_key_counterexample :
    getItemRoute mockItems 999 ≠ .err 404 [("error", "Item not found")]
    ∧ getItemRoute mockItems 999 = .err 404 [("message", "Item not found")] := by
  constructor
  · decide
  · rfl

/-- **C4 (amended)** — for every collection containing no item with the
requested id, `GET /api/items/:id` responds with status 404 and the JSON
body `{message: "Item not found"}` (the `error` key appears only in the
test suite's private error middleware, not in the served app). -/
theorem item_not_found_responds_404 :
    ∀ (items : List Item) (idNum : Int),
      (∀ i ∈ items, i.id ≠ idNum) →
      getItemRoute items idNum = .err 404 [("message", "Item not found")] := by
  intro items idNum h
  unfold getItemRoute
  have hfind : items.find? (fun i => i.id = idNum) = none :=
    List.find?_eq_none.mpr (fun x hx => by simp [h x hx])
  rw [hfind]
  rfl

/-- Witness for the amended C4 at the spec's scenario input. -/
theorem item_not_found_responds_404_witness :
    getItemRoute mockItems 999 = .err 404 [("message", "Item not found")] :=
  item_not_found_responds_404 mockItems 999 (by decide)

/-- An item whose `name` is `null` — a value the data model permits. -/
def nullNameItem : Item :=
  { id := 1, name := none, category := some "Gadget", price := some 5 }

/-- An item whose `category` is `null`. -/
def nullCatItem : Item :=
  { id := 2, name := some "Widget", category := none, price := some 5 }

/-- **C10** — on a collection containing an item with a `null` name (resp.
`null` category) and a non-blank `q` (resp. `category`) parameter, the
filters raise a `TypeError` (`null` has no `toLowerCase`), so the list and
search endpoints respond 500 instead of filtering the item out: the filter
predicates are not total over the declared item type. -/
theorem null_fields_make_filters_throw :
    listRoute [nullNameItem] { q := "x" } = .err 500 [("message", typeErrorNull.message)]
    ∧ searchRoute [nullNameItem] { q := "x" } = .err 500 [("message", typeErrorNull.message)]
    ∧ listRoute [nullCatItem] { category := "x" } =
        .err 500 [("message", typeErrorNull.message)]
    ∧ searchRoute [nullCatItem] { category := "x" } =
        .err 500 [("message", typeErrorNull.message)]
    ∧ listTextPred "x" nullNameItem = .error typeErrorNull
    ∧ listCatPred "x" nullCatItem = .error typeErrorNull :=
  ⟨rfl, rfl, rfl, rfl, rfl, rfl⟩

/-- A pre-existing item whose id happens to equal the creation timestamp. -/
def collidingItem : Item :=
  { id := 7, name := some "Old", category := some "C", price := some 1 }

/-- The creation payload used in the C7 counterexample. -/
def newBody : NewItem := { name := some "New", category := some "C", price := some 1 }

/-- **C7 counterexample** — ids are assigned from the wall clock with no
collision check: creating at time 7 into a collection already holding an
item with id 7 appends fine, but the subsequent `GET` by the returned id
finds the pre-existing item, not an object deep-equal to the created one. -/
theorem create_then_get_counterexample :
    getItemRoute (createItem [collidingItem] newBody 7).2
        (createItem [collidingItem] newBody 7).1.id
      ≠ .ok 200 (createItem [collidingItem] newBody 7).1 := by
  decide

/-- **C7 (amended)** — provided no existing item's id equals the assigned
timestamp, `POST /api/items` appends exactly one item with the assigned id
(the current time in milliseconds), leaves the existing items unchanged
and in order, and a subsequent `GET` by the returned id yields exactly the
created item. -/
theorem create_appends_and_roundtrips :
    ∀ (items : List Item) (body : NewItem) (now : Int),
      (∀ i ∈ items, i.id ≠ now) →
      (createItem items body now).2 = items ++ [(createItem items body now).1]
      ∧ (createItem items body now).1 =
          { id := now, name := body.name, category := body.category,
            price := body.price }
      ∧ getItemRoute (createItem items body now).2 now
          = .ok 200 (createItem items body now).1 := by
  intro items body now hfresh
  refine ⟨rfl, rfl, ?_⟩
  unfold getItemRoute createItem
  have h1 : items.find? (fun i => i.id = now) = none :=
    List.find?_eq_none.mpr (fun x hx => by simp [hfresh x hx])
  rw [List.find?_append, h1]
  simp

/-- Witness for the amended C7: creating into the mock collection at a
fresh timestamp. -/
theorem create_appends_and_roundtrips_witness :
    (createItem mockItems newBody 99).2
        = mockItems ++ [(createItem mockItems newBody 99).1]
    ∧ (createItem mockItems newBody 99).1 =
        { id := 99, name := newBody.name, category := newBody.category,
          price := newBody.price }
    ∧ getItemRoute (createItem mockItems newBody 99).2 99
        = .ok 200 (createItem mockItems newBody 99).1 :=
  create_appends_and_roundtrips mockItems newBody 99 (by decide)

/-- **C6** — `limit = 0` yields `data == []` with
`pagination.itemsPerPage == 0`, and a negative limit reproduces the
`slice(offset, offset + limit)` semantics rather than being special-cased:
with `limit = -1` on page 1 the returned data is the whole filtered sorted
collection minus its last element. -/
theorem nonpositive_limit_slice_semantics :
    (∀ (items : List Item) (p : ListParams) (resp : ListResponse),
        p.limit = 0 → listHandler items p = .ok resp →
        resp.data = [] ∧ resp.pagination.itemsPerPage = 0)
    ∧ (∀ (items : List Item) (p : ListParams) (resp : ListResponse),
        p.limit = -1 → p.page = 1 → listHandler items p = .ok resp →
        ((listFilter p items).bind (sortItems p.sortBy p.sortOrder)).map List.dropLast
          = .ok resp.data) := by
  constructor
  · intro items p resp h0 hok
    obtain ⟨fl, sorted, hfl, hsort, rfl⟩ := listHandler_ok.mp hok
    constructor
    · show jsSlice sorted ((p.page - 1) * p.limit) ((p.page - 1) * p.limit + p.limit) = []
      rw [h0]
      simpa using jsSlice_zero_len sorted ((p.page - 1) * 0) (by simp)
    · exact h0
  · intro items p resp hm1 hp1 hok
    obtain ⟨fl, sorted, hfl, hsort, rfl⟩ := listHandler_ok.mp hok
    rw [hfl]
    show (sortItems p.sortBy p.sortOrder fl).map List.dropLast = _
    rw [hsort]
    show Except.ok sorted.dropLast =
      .ok (jsSlice sorted ((p.page - 1) * p.limit) ((p.page - 1) * p.limit + p.limit))
    rw [hm1, hp1]
    norm_num
    exact (jsSlice_neg_one sorted).symm

/-- Witness for C6: the mock collection at `limit = 0` and at `limit = -1`
(page 1), where the page drops exactly the last element. -/
theorem nonpositive_limit_slice_semantics_witness :
    ((listOut { limit := 0 } mockItems mockItems).data = []
      ∧ (listOut { limit := 0 } mockItems mockItems).pagination.itemsPerPage = 0)
    ∧ ((listFilter { limit := -1 } mockItems).bind (sortItems .id "asc")).map
        List.dropLast = .ok (listOut { limit := -1 } mockItems mockItems).data :=
  ⟨nonpositive_limit_slice_semantics.1 mockItems { limit := 0 }
      (listOut { limit := 0 } mockItems mockItems) rfl rfl,
   nonpositive_limit_slice_semantics.2 mockItems { limit := -1 }
      (listOut { limit := -1 } mockItems mockItems) rfl rfl rfl⟩

/-- The first mock item, named "Laptop Pro". -/
def laptopItem : Item :=
  { id := 1, name := some "Laptop Pro", category := some "Electronics",
    price := some 2499 }

/-- The specification's text-match predicate: the item's name or category,
case-folded, contains the case-folded trimmed query as a substring. -/
def textMatches (q : String) (i : Item) : Bool :=
  strIncludes (lowerStr (i.name.getD "")) (trimStr (lowerStr q)) ||
  strIncludes (lowerStr (i.category.getD "")) (trimStr (lowerStr q))

theorem listTextPred_total {q : String} {i : Item}
    (hn : i.name.isSome = true) (hc : i.category.isSome = true) :
    listTextPred q i = .ok (textMatches q i) := by
  obtain ⟨n, hn⟩ := Option.isSome_iff_exists.mp hn
  obtain ⟨c, hc⟩ := Option.isSome_iff_exists.mp hc
  unfold listTextPred textMatches
  rw [hn, hc]
  by_cases h1 : strIncludes (lowerStr n) (trimStr (lowerStr q)) = true <;>
    simp [h1]

theorem searchPred_text_only {q : String} {i : Item}
    (hq : q ≠ "") (hqt : trimStr q ≠ "")
    (hn : i.name.isSome = true) (hc : i.category.isSome = true) :
    searchPred { q := q } i = .ok (textMatches q i) := by
  obtain ⟨n, hn⟩ := Option.isSome_iff_exists.mp hn
  obtain ⟨c, hc⟩ := Option.isSome_iff_exists.mp hc
  unfold searchPred textMatches
  rw [hn, hc]
  by_cases h1 : strIncludes (lowerStr n) (trimStr (lowerStr q)) = true <;>
    by_cases h2 : strIncludes (lowerStr c) (trimStr (lowerStr q)) = true <;>
    simp [h1, h2, hq, hqt]

theorem listTextPred_ok_char {q : String} {i : Item} {b : Bool}
    (h : listTextPred q i = .ok b) : b = textMatches q i := by
  unfold listTextPred at h
  cases hn : i.name with
  | none => rw [hn] at h; cases h
  | some n =>
      rw [hn] at h
      dsimp only at h
      by_cases h1 : strIncludes (lowerStr n) (trimStr (lowerStr q)) = true
      · rw [if_pos h1] at h
        cases h
        unfold textMatches
        rw [hn]
        simp [h1]
      · rw [if_neg h1] at h
        cases hc : i.category with
        | none => rw [hc] at h; cases h
        | some c =>
            rw [hc] at h
            cases h
            have h1f : strIncludes (lowerStr n) (trimStr (lowerStr q)) = false := by
              simpa using h1
            unfold textMatches
            rw [hn, hc]
            simp [h1f]

theorem searchPred_eq_of_text (q : String) (hq : q ≠ "") (hqt : trimStr q ≠ "")
    (i : Item) : searchPred { q := q } i = listTextPred q i := by
  unfold searchPred listTextPred
  dsimp only
  rw [if_pos (And.intro hq hqt)]
  cases hn : i.name with
  | none => rfl
  | some n =>
      dsimp only
      by_cases h1 : strIncludes (lowerStr n) (trimStr (lowerStr q)) = true
      · rw [if_pos h1]
        rfl
      · rw [if_neg h1]
        cases hc : i.category with
        | none => rfl
        | some c =>
            dsimp only
            by_cases h2 : strIncludes (lowerStr c) (trimStr (lowerStr q)) = true
            · rw [h2]
              rfl
            · have h2f : strIncludes (lowerStr c) (trimStr (lowerStr q)) = false := by
                simpa using h2
              rw [h2f]
              rfl

theorem filterM_ok_char {p : α → Except JsError Bool} {f : α → Bool}
    (hpf : ∀ a b, p a = .ok b → b = f a) :
    ∀ (l res : List α), filterM p l = .ok res → res = l.filter f := by
  intro l
  induction l with
  | nil =>
      intro res h
      unfold filterM at h
      simp only [Except.ok.injEq] at h
      subst h
      rfl
  | cons a l ih =>
      intro res h
      unfold filterM at h
      cases hpa : p a with
      | error e => rw [hpa] at h; cases h
      | ok b =>
          rw [hpa] at h
          cases hfl : filterM p l with
          | error e => rw [hfl] at h; cases h
          | ok r =>
              rw [hfl] at h
              simp only [Except.ok.injEq] at h
              subst h
              rw [List.filter_cons, ← hpf a b hpa, ← ih r hfl]

/-- **C5** — the text filter keeps exactly the items whose name or
category, case-folded, contains the case-folded trimmed `q` as a
substring: whenever a filtering pass completes it has kept exactly the
matching items, and on collections with string names and categories it
always completes; a blank `q` (together with a blank `category`) filters
nothing out of the list route; the advanced search's text step agrees; and
searching `"LAPTOP"` and `"laptop"` against the item named `"Laptop Pro"`
both match. -/
theorem text_filter_characterization :
    (∀ (items res : List Item) (q : String),
        filterM (listTextPred q) items = .ok res →
        res = items.filter (textMatches q))
    ∧ (∀ (items : List Item) (q : String),
        (∀ i ∈ items, i.name.isSome = true ∧ i.category.isSome = true) →
        filterM (listTextPred q) items = .ok (items.filter (textMatches q)))
    ∧ (∀ (items : List Item) (p : ListParams),
        trimStr p.q = "" → trimStr p.category = "" →
        listFilter p items = .ok items)
    ∧ (∀ (items res : List Item) (q : String), q ≠ "" → trimStr q ≠ "" →
        searchItems items { q := q } = .ok res →
        res = items.filter (textMatches q))
    ∧ (∀ (items : List Item) (q : String),
        (∀ i ∈ items, i.name.isSome = true ∧ i.category.isSome = true) →
        q ≠ "" → trimStr q ≠ "" →
        searchItems items { q := q } = .ok (items.filter (textMatches q)))
    ∧ textMatches "LAPTOP" laptopItem = true
    ∧ textMatches "laptop" laptopItem = true
    ∧ filterM (listTextPred "LAPTOP") mockItems = .ok [laptopItem] := by
  refine ⟨?_, ?_, ?_, ?_, ?_, by decide, by decide, by rfl⟩
  · intro items res q hok
    exact filterM_ok_char (fun i b h => listTextPred_ok_char h) items res hok
  · intro items q hsome
    rw [filterM_eq_filter (listTextPred q) items
        (fun i hi => by rw [listTextPred_total (hsome i hi).1 (hsome i hi).2]; rfl)]
    congr 1
    exact List.filter_congr (fun i hi => by
      rw [listTextPred_total (hsome i hi).1 (hsome i hi).2]; rfl)
  · intro items p hq hcat
    unfold listFilter
    simp [hq, hcat]
  · intro items res q hq hqt hok
    refine filterM_ok_char (fun i b h => ?_) items res hok
    rw [searchPred_eq_of_text q hq hqt] at h
    exact listTextPred_ok_char h
  · intro items q hsome hq hqt
    unfold searchItems
    rw [filterM_eq_filter (searchPred { q := q }) items
        (fun i hi => by
          rw [searchPred_text_only hq hqt (hsome i hi).1 (hsome i hi).2]; rfl)]
    congr 1
    exact List.filter_congr (fun i hi => by
      rw [searchPred_text_only hq hqt (hsome i hi).1 (hsome i hi).2]; rfl)

/-- Witness for C5: the characterization applied to the mock collection
with queries `"LAPTOP"` (list filter) and `"laptop"` (advanced search). -/
theorem text_filter_characterization_witness :
    [laptopItem] = mockItems.filter (textMatches "LAPTOP")
    ∧ filterM (listTextPred "LAPTOP") mockItems =
      .ok (mockItems.filter (textMatches "LAPTOP"))
    ∧ listFilter { q := " ", category := "" } mockItems = .ok mockItems
    ∧ searchItems mockItems { q := "laptop" } =
      .ok (mockItems.filter (textMatches "laptop")) :=
  ⟨text_filter_characterization.1 mockItems [laptopItem] "LAPTOP" (by rfl),
   text_filter_characterization.2.1 mockItems "LAPTOP" (by decide),
   text_filter_characterization.2.2.1 mockItems { q := " ", category := "" }
      (by decide) (by decide),
   text_filter_characterization.2.2.2.2.1 mockItems "laptop" (by decide)
      (by decide) (by decide)⟩

theorem price_desc_le {a b : Item} {pa pb : Int}
    (ha : a.price = some pa) (hb : b.price = some pb) :
    itemCompareD .price "desc" a b ≤ 0 ↔ pb ≤ pa := by
  unfold itemCompareD itemCompare
  simp only [Item.field, ha, hb, Option.map_some', Option.getD_some]
  by_cases h1 : pa < pb <;> by_cases h2 : pb < pa <;>
    simp [jsLt, jsToNumber, h1, h2] <;> omega

theorem name_asc_le {a b : Item} {na nb : String}
    (ha : a.name = some na) (hb : b.name = some nb) :
    itemCompareD .name "asc" a b ≤ 0 ↔ (lowerStr na).data ≤ (lowerStr nb).data := by
  unfold itemCompareD itemCompare
  simp only [Item.field, ha, hb, Option.map_some', Option.getD_some]
  by_cases h1 : (lowerStr nb).data < (lowerStr na).data
  · simp [jsLt, h1, not_le.mpr h1]
  · by_cases h2 : (lowerStr na).data < (lowerStr nb).data
    · simp [jsLt, h1, h2, le_of_lt h2]
    · simp [jsLt, h1, h2, le_of_not_lt h1]

theorem itemCompare_price_isOk (a b : Item) :
    (itemCompare .price "desc" a b).isOk = true := by
  unfold itemCompare
  cases ha : a.price <;> cases hb : b.price <;>
    simp [Item.field, ha, hb, Except.isOk, Except.toBool]

theorem itemCompare_name_isOk {a b : Item}
    (ha : a.name.isSome = true) (hb : b.name.isSome = true) :
    (itemCompare .name "asc" a b).isOk = true := by
  obtain ⟨na, ha⟩ := Option.isSome_iff_exists.mp ha
  obtain ⟨nb, hb⟩ := Option.isSome_iff_exists.mp hb
  unfold itemCompare
  simp [Item.field, ha, hb, Except.isOk, Except.toBool]

/-- **C8** — for a collection with numeric prices, a successful sort by
`price` descending yields a non-increasing sequence of prices; for a
collection with string names, a successful sort by `name` ascending yields
names that are lexicographically non-decreasing after case-folding. -/
theorem sorting_orders_correct :
    (∀ (items out : List Item), (∀ i ∈ items, i.price.isSome = true) →
        sortItems .price "desc" items = .ok out →
        (out.map (fun i => i.price.getD 0)).Pairwise (fun x y : Int => y ≤ x))
    ∧ (∀ (items out : List Item), (∀ i ∈ items, i.name.isSome = true) →
        sortItems .name "asc" items = .ok out →
        (out.map (fun i => (lowerStr (i.name.getD "")).data)).Pairwise
          (fun x y : List Char => x ≤ y)) := by
  constructor
  · intro items out hp hok
    unfold sortItems at hok
    split at hok
    case isFalse => cases hok
    case isTrue =>
      cases hok
      have hpw := @pairwise_jsSortBy Item
        (fun i : Item => i.price.isSome = true)
        (fun a b => decide (itemCompareD .price "desc" a b ≤ 0))
        (fun a b c hpa hpb hpc hab hbc => by
          obtain ⟨pa, hpa⟩ := Option.isSome_iff_exists.mp hpa
          obtain ⟨pb, hpb⟩ := Option.isSome_iff_exists.mp hpb
          obtain ⟨pc, hpc⟩ := Option.isSome_iff_exists.mp hpc
          rw [decide_eq_true_eq] at hab hbc ⊢
          rw [price_desc_le hpa hpb] at hab
          rw [price_desc_le hpb hpc] at hbc
          rw [price_desc_le hpa hpc]
          omega)
        (fun a b hpa hpb => by
          obtain ⟨pa, hpa⟩ := Option.isSome_iff_exists.mp hpa
          obtain ⟨pb, hpb⟩ := Option.isSome_iff_exists.mp hpb
          rw [decide_eq_true_eq, decide_eq_true_eq,
            price_desc_le hpa hpb, price_desc_le hpb hpa]
          omega)
        items hp
      rw [List.pairwise_map]
      refine hpw.imp_of_mem ?_
      intro a b ha hb hle
      have hpa := hp a ((jsSortBy_mem _ items a).mp ha)
      have hpb := hp b ((jsSortBy_mem _ items b).mp hb)
      obtain ⟨pa, hpa⟩ := Option.isSome_iff_exists.mp hpa
      obtain ⟨pb, hpb⟩ := Option.isSome_iff_exists.mp hpb
      rw [decide_eq_true_eq, price_desc_le hpa hpb] at hle
      rw [hpa, hpb]
      simpa using hle
  · intro items out hn hok
    unfold sortItems at hok
    split at hok
    case isFalse => cases hok
    case isTrue =>
      cases hok
      have hpw := @pairwise_jsSortBy Item
        (fun i : Item => i.name.isSome = true)
        (fun a b => decide (itemCompareD .name "asc" a b ≤ 0))
        (fun a b c hpa hpb hpc hab hbc => by
          obtain ⟨na, hpa⟩ := Option.isSome_iff_exists.mp hpa
          obtain ⟨nb, hpb⟩ := Option.isSome_iff_exists.mp hpb
          obtain ⟨nc, hpc⟩ := Option.isSome_iff_exists.mp hpc
          rw [decide_eq_true_eq] at hab hbc ⊢
          rw [name_asc_le hpa hpb] at hab
          rw [name_asc_le hpb hpc] at hbc
          rw [name_asc_le hpa hpc]
          exact le_trans hab hbc)
        (fun a b hpa hpb => by
          obtain ⟨na, hpa⟩ := Option.isSome_iff_exists.mp hpa
          obtain ⟨nb, hpb⟩ := Option.isSome_iff_exists.mp hpb
          rw [decide_eq_true_eq, decide_eq_true_eq,
            name_asc_le hpa hpb, name_asc_le hpb hpa]
          exact le_total _ _)
        items hn
      rw [List.pairwise_map]
      refine hpw.imp_of_mem ?_
      intro a b ha hb hle
      have hna := hn a ((jsSortBy_mem _ items a).mp ha)
      have hnb := hn b ((jsSortBy_mem _ items b).mp hb)
      obtain ⟨na, hna⟩ := Option.isSome_iff_exists.mp hna
      obtain ⟨nb, hnb⟩ := Option.isSome_iff_exists.mp hnb
      rw [decide_eq_true_eq, name_asc_le hna hnb] at hle
      rw [hna, hnb]
      simpa using hle

/-- Witness for C8: the mock collection sorted by price descending and by
name ascending. -/
theorem sorting_orders_correct_witness :
    ((jsSortBy (fun a b => decide (itemCompareD .price "desc" a b ≤ 0)) mockItems).map
        (fun i => i.price.getD 0)).Pairwise (fun x y : Int => y ≤ x)
    ∧ ((jsSortBy (fun a b => decide (itemCompareD .name "asc" a b ≤ 0)) mockItems).map
        (fun i => (lowerStr (i.name.getD "")).data)).Pairwise
          (fun x y : List Char => x ≤ y) :=
  ⟨sorting_orders_correct.1 mockItems _ (by decide) (by rfl),
   sorting_orders_correct.2 mockItems _ (by decide) (by rfl)⟩

theorem setDedupGo_mem [DecidableEq α] (x : α) :
    ∀ (l seen : List α), x ∈ setDedupGo seen l ↔ x ∈ l ∧ x ∉ seen
  | [], seen => by simp [setDedupGo]
  | a :: l, seen => by
      unfold setDedupGo
      by_cases hseen : a ∈ seen
      · rw [if_pos hseen, setDedupGo_mem x l seen, List.mem_cons]
        by_cases hxa : x = a
        · subst hxa
          simp [hseen]
        · simp [hxa]
      · rw [if_neg hseen, List.mem_cons, setDedupGo_mem x l (a :: seen),
          List.mem_cons, List.mem_cons]
        by_cases hxa : x = a
        · subst hxa
          simp [hseen]
        · simp [hxa]

theorem setDedupGo_nodup [DecidableEq α] :
    ∀ (l seen : List α), (setDedupGo seen l).Nodup
  | [], seen => by simp [setDedupGo]
  | a :: l, seen => by
      unfold setDedupGo
      by_cases hseen : a ∈ seen
      · rw [if_pos hseen]
        exact setDedupGo_nodup l seen
      · rw [if_neg hseen, List.nodup_cons]
        refine ⟨?_, setDedupGo_nodup l (a :: seen)⟩
        intro hmem
        exact ((setDedupGo_mem a l (a :: seen)).mp hmem).2 (List.mem_cons_self a seen)

theorem setDedup_mem [DecidableEq α] (l : List α) (x : α) :
    x ∈ setDedup l ↔ x ∈ l := by
  unfold setDedup
  rw [setDedupGo_mem]
  simp

theorem setDedup_nodup [DecidableEq α] (l : List α) : (setDedup l).Nodup :=
  setDedupGo_nodup l []

/-- **C9** — the categories operation returns exactly the distinct
category values of the items, compared case-sensitively, sorted ascending
by their string form; duplicated `"Electronics"` collapses to one entry,
and `"a"` and `"A"` stay distinct. -/
theorem categories_distinct_sorted :
    (∀ items : List Item,
        (getCategories items).Nodup
        ∧ (∀ c, c ∈ getCategories items ↔ c ∈ items.map (·.category))
        ∧ (getCategories items).Pairwise
            (fun a b => (categoryKey a).data ≤ (categoryKey b).data))
    ∧ getCategories
        [{ id := 1, category := some "Electronics" },
         { id := 2, category := some "Electronics" },
         { id := 3, category := some "Furniture" }] =
        [some "Electronics", some "Furniture"]
    ∧ getCategories
        [{ id := 1, category := some "a" }, { id := 2, category := some "A" }] =
        [some "A", some "a"] := by
  refine ⟨?_, by decide, by decide⟩
  intro items
  refine ⟨?_, ?_, ?_⟩
  · exact ((jsSortBy_perm _ _).nodup_iff).mpr (setDedup_nodup _)
  · intro c
    rw [getCategories, jsSortBy_mem, setDedup_mem]
  · have hpw := @pairwise_jsSortBy (Option String) (fun _ : Option String => True)
      (fun a b => decide ((categoryKey a).data ≤ (categoryKey b).data))
      (fun a b c _ _ _ hab hbc => by
        rw [decide_eq_true_eq] at hab hbc ⊢
        exact le_trans hab hbc)
      (fun a b _ _ => by
        rw [decide_eq_true_eq, decide_eq_true_eq]
        exact le_total _ _)
      (setDedup (items.map (·.category))) (fun _ _ => trivial)
    exact hpw.imp (fun h => decide_eq_true_eq.mp h)

end Catalog
